import Mathlib

/-!
Verification development for the PathFindHer safe-route planner.

The definitions below are a shallow embedding of the route-planning core
(`services/geminiService.ts`) and the local-storage pin store
(`services/pinService.ts`).  JavaScript numbers are modelled as real
numbers, the external OSRM routing provider and the generative narrative
service are modelled as oracles passed in as arguments, and a thrown
exception in the narrative call is modelled with `Except.error` (it is
caught only by the outer try/catch of `getSafeRoute`).
-/

open Real

/-- Severity enumeration from `types.ts` (`SafetyLevel`). -/
inductive SafetyLevel where
  | SAFE
  | CAUTION
  | DANGER
deriving DecidableEq, Repr

/-- Coordinate pair from `types.ts` (`LatLng`). -/
@[ext]
structure LatLng where
  lat : ℝ
  lng : ℝ

/-- Hazard report from `types.ts` (`Pin`). -/
structure Pin where
  id : String
  lat : ℝ
  lng : ℝ
  safetyLevel : SafetyLevel
  description : String
  timestamp : ℤ
  userId : String

/-- A `Pin` used where a `LatLng` is expected (TypeScript structural typing:
`getDistanceMeters(point, pin)` reads `pin.lat` and `pin.lng`). -/
def Pin.toLatLng (p : Pin) : LatLng := ⟨p.lat, p.lng⟩

noncomputable instance : DecidableEq LatLng := Classical.decEq _

noncomputable instance : DecidableEq Pin := Classical.decEq _

/-- Result record from `types.ts` (`RouteResponse`); the optional fields
`duration?` and `safetyNote?` become `Option String`. -/
structure RouteResponse where
  route : List LatLng
  duration : Option String
  safetyNote : Option String

noncomputable instance : DecidableEq RouteResponse := Classical.decEq _

/-- The part of an OSRM route object consumed by the planner: the geojson
geometry (a list of `[lng, lat]` pairs) and the duration in seconds. -/
structure OSRMRoute where
  coordinates : List (ℝ × ℝ)
  duration : ℝ

noncomputable instance : DecidableEq OSRMRoute := Classical.decEq _

/-- JavaScript `Math.atan2 y x`, modelled by the complex argument of
`x + y·i` (range `(-π, π]`, and `atan2 0 0 = 0`). -/
noncomputable def atan2 (y x : ℝ) : ℝ := Complex.arg ⟨x, y⟩

/-- `getDistanceMeters` from `geminiService.ts` lines 9-22: haversine
great-circle distance with Earth radius 6,371,000 m. -/
noncomputable def getDistanceMeters (p1 p2 : LatLng) : ℝ :=
  let R : ℝ := 6371e3
  let φ1 := p1.lat * π / 180
  let φ2 := p2.lat * π / 180
  let Δφ := (p2.lat - p1.lat) * π / 180
  let Δlon := (p2.lng - p1.lng) * π / 180
  let a := Real.sin (Δφ / 2) * Real.sin (Δφ / 2) +
           Real.cos φ1 * Real.cos φ2 *
           Real.sin (Δlon / 2) * Real.sin (Δlon / 2)
  let c := 2 * atan2 (Real.sqrt a) (Real.sqrt (1 - a))
  R * c

/-- The haversine intermediate value `a` of `getDistanceMeters`
(proof-side name for the subterm). -/
noncomputable def hav (p1 p2 : LatLng) : ℝ :=
  Real.sin ((p2.lat - p1.lat) * π / 180 / 2) * Real.sin ((p2.lat - p1.lat) * π / 180 / 2) +
  Real.cos (p1.lat * π / 180) * Real.cos (p2.lat * π / 180) *
  Real.sin ((p2.lng - p1.lng) * π / 180 / 2) * Real.sin ((p2.lng - p1.lng) * π / 180 / 2)

/-- Truncation toward zero, the rounding used by the JavaScript `%`
operator on numbers. -/
noncomputable def jsTrunc (x : ℝ) : ℤ := if 0 ≤ x then ⌊x⌋ else ⌈x⌉

/-- JavaScript `a % b` on numbers (sign follows the dividend). -/
noncomputable def jsFmod (a b : ℝ) : ℝ := a - b * (jsTrunc (a / b) : ℝ)

/-- `getBearing` from `geminiService.ts` lines 25-36: initial compass
bearing from `start` to `destination` in degrees. -/
noncomputable def getBearing (start destination : LatLng) : ℝ :=
  let startLat := start.lat * π / 180
  let startLng := start.lng * π / 180
  let destLat := destination.lat * π / 180
  let destLng := destination.lng * π / 180
  let y := Real.sin (destLng - startLng) * Real.cos destLat
  let x := Real.cos startLat * Real.sin destLat -
           Real.sin startLat * Real.cos destLat * Real.cos (destLng - startLng)
  let brng := atan2 y x
  jsFmod (brng * 180 / π + 360) 360

/-- `getDestinationPoint` from `geminiService.ts` lines 39-55: forward
geodesic projection of `start` by `distanceMeters` along `bearing`. -/
noncomputable def getDestinationPoint (start : LatLng) (distanceMeters : ℝ) (bearing : ℝ) :
    LatLng :=
  let R : ℝ := 6371e3
  let angDist := distanceMeters / R
  let brng := bearing * π / 180
  let lat1 := start.lat * π / 180
  let lon1 := start.lng * π / 180
  let lat2 := Real.arcsin (Real.sin lat1 * Real.cos angDist +
                           Real.cos lat1 * Real.sin angDist * Real.cos brng)
  let lon2 := lon1 + atan2 (Real.sin brng * Real.sin angDist * Real.cos lat1)
                           (Real.cos angDist - Real.sin lat1 * Real.sin lat2)
  ⟨lat2 * 180 / π, lon2 * 180 / π⟩

/-- `formatDuration` from `geminiService.ts` lines 57-69: 20% buffer,
minutes rounded up, `"{N} min walk"` below one hour and
`"{H} hr {M} min walk"` otherwise. -/
noncomputable def formatDuration (seconds : ℝ) : String :=
  let adjustedSeconds := seconds * 1.2
  let totalMinutes : ℤ := ⌈adjustedSeconds / 60⌉
  if totalMinutes < 60 then
    toString totalMinutes ++ " min walk"
  else
    let hours := totalMinutes.fdiv 60
    let mins := totalMinutes.tmod 60
    toString hours ++ " hr " ++ toString mins ++ " min walk"

/-- One step of the conflict-accumulation loop of `checkRouteConflicts`
(`geminiService.ts` lines 80-94).  The accumulator models the insertion
ordered `Set<Pin>`: a pin is appended at most once. -/
noncomputable def conflictAdd (point startLoc endLoc : LatLng) (conflicts : List Pin)
    (pin : Pin) : List Pin :=
  if getDistanceMeters point pin.toLatLng < 150 then
    if getDistanceMeters pin.toLatLng startLoc > 80 ∧
       getDistanceMeters pin.toLatLng endLoc > 80 then
      if pin ∈ conflicts then conflicts else conflicts ++ [pin]
    else conflicts
  else conflicts

/-- `checkRouteConflicts` from `geminiService.ts` lines 72-96: the DANGER
pins within 150 m of some path point, excluding pins within 80 m of the
start or end, in first-hit insertion order. -/
noncomputable def checkRouteConflicts (routePath : List LatLng) (pins : List Pin)
    (startLoc endLoc : LatLng) : List Pin :=
  let dangerPins := pins.filter fun p => p.safetyLevel == SafetyLevel.DANGER
  routePath.foldl (fun conflicts point => dangerPins.foldl (conflictAdd point startLoc endLoc) conflicts) []

/-- An entry of the candidate list built inside `getSafeRoute`
(`geminiService.ts` lines 237-245 and 272-279). -/
structure Candidate where
  coords : List LatLng
  data : OSRMRoute
  conflicts : List Pin
  type : String
  score : ℝ

noncomputable instance : DecidableEq Candidate := Classical.decEq _

/-- The geojson-to-`LatLng` map `(c) => ({ lat: c[1], lng: c[0] })`
applied to a route's geometry (`geminiService.ts` lines 233 and 274). -/
def mapCoords (data : OSRMRoute) : List LatLng :=
  data.coordinates.map fun c => ⟨c.2, c.1⟩

/-- The `evaluate` helper of `getSafeRoute` (`geminiService.ts` lines
272-280), also used for the initial direct candidate (lines 237-245,
which build the same record with type `"direct"`):
score = conflicts × 1,000,000 + duration. -/
noncomputable def evaluateRoute (pins : List Pin) (start destinationLoc : LatLng)
    (data : OSRMRoute) (type : String) : Candidate :=
  let coords := mapCoords data
  let conflicts := checkRouteConflicts coords pins start destinationLoc
  ⟨coords, data, conflicts, type, (conflicts.length : ℝ) * 1000000 + data.duration⟩

/-- The initial direct-path candidate of `getSafeRoute`
(`geminiService.ts` lines 233-245). -/
noncomputable def directCandidate (pins : List Pin) (start destinationLoc : LatLng)
    (data : OSRMRoute) : Candidate :=
  evaluateRoute pins start destinationLoc data "direct"

/-- The offset fan `[300, 600, 1000, 1500]` (`geminiService.ts` line 254). -/
def offsets : List ℕ := [300, 600, 1000, 1500]

/-- The ordered list of detour route requests generated by the loop at
`geminiService.ts` lines 259-267: for each offset, the left waypoint
(bearing − 90) then the right waypoint (bearing + 90), each tagged with
its provenance string. -/
noncomputable def detourRequests (conflictPin : LatLng) (bearing : ℝ) :
    List (LatLng × String) :=
  offsets.flatMap fun offset =>
    [(getDestinationPoint conflictPin (offset : ℝ) (bearing - 90), "left-" ++ toString offset),
     (getDestinationPoint conflictPin (offset : ℝ) (bearing + 90), "right-" ++ toString offset)]

/-- The merged candidate list of `getSafeRoute` (`geminiService.ts` lines
282-289): the direct candidate first, then each settled detour fetch that
returned a route, in request order; failed fetches contribute nothing. -/
noncomputable def allCandidates (start destinationLoc : LatLng) (pins : List Pin)
    (directRouteData : OSRMRoute) (fetchVia : LatLng → Option OSRMRoute) : List Candidate :=
  let direct := directCandidate pins start destinationLoc directRouteData
  match direct.conflicts with
  | [] => [direct]
  | conflictPin :: _ =>
    direct ::
      (detourRequests conflictPin.toLatLng (getBearing start destinationLoc)).filterMap
        fun wt => (fetchVia wt.1).map fun data => evaluateRoute pins start destinationLoc data wt.2

/-- The comparator `(a, b) => a.score - b.score` of `geminiService.ts`
line 292, as the Boolean "ordered" relation of the (ES2019 stable) sort. -/
noncomputable def scoreLE (a b : Candidate) : Bool := decide (a.score ≤ b.score)

/-- The selection step of `getSafeRoute` (`geminiService.ts` lines
248-296): the direct candidate when it has no conflicts, otherwise the
first element of the stably sorted merged candidate list. -/
noncomputable def selectedCandidate (start destinationLoc : LatLng) (pins : List Pin)
    (directRouteData : OSRMRoute) (fetchVia : LatLng → Option OSRMRoute) : Candidate :=
  let direct := directCandidate pins start destinationLoc directRouteData
  match direct.conflicts with
  | [] => direct
  | _ :: _ =>
    ((allCandidates start destinationLoc pins directRouteData fetchVia).mergeSort scoreLE).headD
      direct

/-- The default safety note (`geminiService.ts` line 329). -/
def stayAwareNote : String := "Stay aware of your surroundings."

/-- The strict fallback warning (`geminiService.ts` line 339). -/
def noSafePathNote : String :=
  "Warning: Safe path not possible. This route still passes near reported danger zones."

/-- The fixed apology of the catch branch (`geminiService.ts` line 352). -/
def apologyNote : String :=
  "Could not calculate safe route. Please check your internet connection."

/-- The failure outcome of `getSafeRoute` (`geminiService.ts` lines
350-353): empty route, no duration, fixed apology note. -/
def apologyResponse : RouteResponse := ⟨[], none, some apologyNote⟩

/-- `getSafeRoute` from `geminiService.ts` lines 224-355.  External
effects are oracles: `fetchDirect` is the OSRM response for the direct
request, `fetchVia wp` the response for the request through waypoint
`wp` (`fetchOSRMRoute` swallows its own errors, hence `Option`),
`aiText` the narrative call (`Except.error` = the call threw, reaching
the outer catch; `Except.ok t` = a response whose `.text` is `t`), and
`parseSafetyNote s` the result of `JSON.parse(s).safetyNote` (`none` =
parse error or missing/falsy field, handled by the inner try/catch). -/
noncomputable def getSafeRoute (start destinationLoc : LatLng) (pins : List Pin)
    (fetchDirect : Option OSRMRoute) (fetchVia : LatLng → Option OSRMRoute)
    (aiText : Except Unit (Option String)) (parseSafetyNote : String → Option String) :
    RouteResponse :=
  match fetchDirect with
  | none => apologyResponse
  | some directRouteData =>
    let selectedRoute := selectedCandidate start destinationLoc pins directRouteData fetchVia
    match aiText with
    | Except.error _ => apologyResponse
    | Except.ok t =>
      let duration := formatDuration selectedRoute.data.duration
      let dangerCount := selectedRoute.conflicts.length
      let note :=
        match t with
        | none => stayAwareNote
        | some s =>
          match parseSafetyNote s with
          | some n => n
          | none => stayAwareNote
      let safetyNote :=
        if dangerCount > 0 ∧ note = stayAwareNote then noSafePathNote else note
      ⟨selectedRoute.coords, some duration, some safetyNote⟩

/-- The user-submitted part of a pin, `Omit<Pin, 'id' | 'timestamp'>`
(`pinService.ts` line 85). -/
structure PinInput where
  lat : ℝ
  lng : ℝ
  safetyLevel : SafetyLevel
  description : String
  userId : String

/-- `addPin`, local-storage branch (`pinService.ts` lines 100-111): build
the new pin from the input plus a fresh id and the current timestamp,
append it to the stored list, return the new pin. -/
def addPin (stored : List Pin) (pin : PinInput) (freshId : String) (now : ℤ) :
    List Pin × Pin :=
  let newPin : Pin := ⟨freshId, pin.lat, pin.lng, pin.safetyLevel, pin.description, now, pin.userId⟩
  (stored ++ [newPin], newPin)

/-- `removePin`, local-storage branch (`pinService.ts` lines 144-149):
keep exactly the pins whose id differs from `pinId`. -/
def removePin (stored : List Pin) (pinId : String) : List Pin :=
  stored.filter fun p => p.id != pinId

/-! ### Conflict detection: membership and distinctness -/

theorem conflictAdd_mem (point startLoc endLoc : LatLng) (acc : List Pin) (pin q : Pin) :
    q ∈ conflictAdd point startLoc endLoc acc pin ↔
      q ∈ acc ∨ (q = pin ∧ getDistanceMeters point pin.toLatLng < 150 ∧
        getDistanceMeters pin.toLatLng startLoc > 80 ∧
        getDistanceMeters pin.toLatLng endLoc > 80) := by
  unfold conflictAdd
  split_ifs with h1 h2 h3
  · constructor
    · exact fun h => Or.inl h
    · rintro (h | ⟨rfl, _⟩)
      · exact h
      · exact h3
  · simp only [List.mem_append, List.mem_singleton]
    constructor
    · rintro (h | rfl)
      · exact Or.inl h
      · exact Or.inr ⟨rfl, h1, h2.1, h2.2⟩
    · rintro (h | ⟨rfl, _⟩)
      · exact Or.inl h
      · exact Or.inr rfl
  · constructor
    · exact fun h => Or.inl h
    · rintro (h | ⟨rfl, _, hc2, hc3⟩)
      · exact h
      · exact absurd ⟨hc2, hc3⟩ h2
  · constructor
    · exact fun h => Or.inl h
    · rintro (h | ⟨rfl, hc1, _⟩)
      · exact h
      · exact absurd hc1 h1

theorem conflictAdd_nodup (point startLoc endLoc : LatLng) (acc : List Pin) (pin : Pin)
    (h : acc.Nodup) : (conflictAdd point startLoc endLoc acc pin).Nodup := by
  unfold conflictAdd
  split_ifs with h1 h2 h3
  · exact h
  · refine List.Nodup.append h (List.nodup_singleton pin) ?_
    intro a ha hb
    rw [List.mem_singleton] at hb
    subst hb
    exact h3 ha
  · exact h
  · exact h

theorem innerFold_mem (point startLoc endLoc : LatLng) (dps : List Pin) (acc : List Pin)
    (q : Pin) :
    q ∈ dps.foldl (conflictAdd point startLoc endLoc) acc ↔
      q ∈ acc ∨ ∃ pin ∈ dps, q = pin ∧ getDistanceMeters point pin.toLatLng < 150 ∧
        getDistanceMeters pin.toLatLng startLoc > 80 ∧
        getDistanceMeters pin.toLatLng endLoc > 80 := by
  induction dps generalizing acc with
  | nil => simp
  | cons p ps ih =>
    rw [List.foldl_cons, ih, conflictAdd_mem]
    simp only [List.mem_cons]
    constructor
    · rintro ((h | ⟨hqp, hc⟩) | ⟨pin, hpin, hq⟩)
      · exact Or.inl h
      · exact Or.inr ⟨p, Or.inl rfl, hqp, hc⟩
      · exact Or.inr ⟨pin, Or.inr hpin, hq⟩
    · rintro (h | ⟨pin, (rfl | hpin), hq⟩)
      · exact Or.inl (Or.inl h)
      · exact Or.inl (Or.inr hq)
      · exact Or.inr ⟨pin, hpin, hq⟩

theorem innerFold_nodup (point startLoc endLoc : LatLng) (dps : List Pin) (acc : List Pin)
    (h : acc.Nodup) : (dps.foldl (conflictAdd point startLoc endLoc) acc).Nodup := by
  induction dps generalizing acc with
  | nil => simpa
  | cons p ps ih =>
    rw [List.foldl_cons]
    exact ih _ (conflictAdd_nodup _ _ _ _ _ h)

theorem outerFold_mem (path : List LatLng) (dps : List Pin) (startLoc endLoc : LatLng)
    (acc : List Pin) (q : Pin) :
    q ∈ path.foldl (fun conflicts point => dps.foldl (conflictAdd point startLoc endLoc) conflicts) acc ↔
      q ∈ acc ∨ ∃ point ∈ path, ∃ pin ∈ dps, q = pin ∧
        getDistanceMeters point pin.toLatLng < 150 ∧
        getDistanceMeters pin.toLatLng startLoc > 80 ∧
        getDistanceMeters pin.toLatLng endLoc > 80 := by
  induction path generalizing acc with
  | nil => simp
  | cons pt pts ih =>
    rw [List.foldl_cons, ih, innerFold_mem]
    simp only [List.mem_cons]
    constructor
    · rintro ((h | ⟨pin, hpin, hq⟩) | ⟨point, hpt, rest⟩)
      · exact Or.inl h
      · exact Or.inr ⟨pt, Or.inl rfl, pin, hpin, hq⟩
      · exact Or.inr ⟨point, Or.inr hpt, rest⟩
    · rintro (h | ⟨point, (rfl | hpt), rest⟩)
      · exact Or.inl (Or.inl h)
      · exact Or.inl (Or.inr rest)
      · exact Or.inr ⟨point, hpt, rest⟩

theorem outerFold_nodup (path : List LatLng) (dps : List Pin) (startLoc endLoc : LatLng)
    (acc : List Pin) (h : acc.Nodup) :
    (path.foldl (fun conflicts point => dps.foldl (conflictAdd point startLoc endLoc) conflicts) acc).Nodup := by
  induction path generalizing acc with
  | nil => simpa
  | cons pt pts ih =>
    rw [List.foldl_cons]
    exact ih _ (innerFold_nodup _ _ _ _ _ h)

/-- C2: conflict detection returns exactly the distinct set of DANGER pins
with some path point within 150 m, themselves more than 80 m from both the
start and the end point; SAFE and CAUTION pins never appear. -/
theorem claim_C2 (routePath : List LatLng) (pins : List Pin) (startLoc endLoc : LatLng) :
    (∀ q : Pin, q ∈ checkRouteConflicts routePath pins startLoc endLoc ↔
      (q ∈ pins ∧ q.safetyLevel = SafetyLevel.DANGER ∧
        (∃ point ∈ routePath, getDistanceMeters point q.toLatLng < 150) ∧
        getDistanceMeters q.toLatLng startLoc > 80 ∧
        getDistanceMeters q.toLatLng endLoc > 80)) ∧
    (checkRouteConflicts routePath pins startLoc endLoc).Nodup := by
  constructor
  · intro q
    simp only [checkRouteConflicts]
    rw [outerFold_mem]
    constructor
    · rintro (h | ⟨point, hpt, pin, hpin, rfl, hd1, hd2, hd3⟩)
      · cases h
      · obtain ⟨hmem, hbeq⟩ := List.mem_filter.mp hpin
        exact ⟨hmem, by simpa using hbeq, ⟨point, hpt, hd1⟩, hd2, hd3⟩
    · rintro ⟨hq, hdang, ⟨point, hpt, hd1⟩, hd2, hd3⟩
      exact Or.inr ⟨point, hpt, q, List.mem_filter.mpr ⟨hq, by simpa using hdang⟩, rfl, hd1, hd2, hd3⟩
  · simp only [checkRouteConflicts]
    exact outerFold_nodup _ _ _ _ _ List.nodup_nil

/-! ### Local pin store -/

/-- C10: in the local-storage backend, `addPin` appends the new pin at the
end leaving every stored pin unchanged and in order, and `removePin`
removes exactly the pins with the given id, keeping all others in their
original relative order. -/
theorem claim_C10 (stored : List Pin) (pin : PinInput) (freshId : String) (now : ℤ)
    (pinId : String) :
    ((addPin stored pin freshId now).1 = stored ++ [(addPin stored pin freshId now).2] ∧
     (addPin stored pin freshId now).1.take stored.length = stored ∧
     (addPin stored pin freshId now).2.id = freshId ∧
     (addPin stored pin freshId now).2.timestamp = now) ∧
    ((removePin stored pinId).Sublist stored ∧
     ∀ q : Pin, q ∈ removePin stored pinId ↔ q ∈ stored ∧ q.id ≠ pinId) := by
  refine ⟨⟨rfl, ?_, rfl, rfl⟩, ?_, ?_⟩
  · simp only [addPin]
    exact List.take_left stored _
  · exact List.filter_sublist stored
  · intro q
    simp [removePin, List.mem_filter, bne_iff_ne]

/-! ### Duration formatting -/

/-- C7: duration formatting multiplies by 1.2, rounds minutes up
(ceiling, never optimistic), renders `"{N} min walk"` below one hour and
`"{H} hr {M} min walk"` otherwise; `formatDuration 590 = "12 min walk"`
and `formatDuration 3600 = "1 hr 12 min walk"`. -/
theorem claim_C7 (seconds : ℝ) (h : 0 ≤ seconds) :
    seconds * 1.2 / 60 ≤ ((⌈seconds * 1.2 / 60⌉ : ℤ) : ℝ) ∧
    (⌈seconds * 1.2 / 60⌉ < 60 →
      formatDuration seconds = toString ⌈seconds * 1.2 / 60⌉ ++ " min walk") ∧
    (60 ≤ ⌈seconds * 1.2 / 60⌉ →
      formatDuration seconds =
        toString ((⌈seconds * 1.2 / 60⌉).fdiv 60) ++ " hr " ++
        toString ((⌈seconds * 1.2 / 60⌉).tmod 60) ++ " min walk") ∧
    formatDuration 590 = "12 min walk" ∧
    formatDuration 3600 = "1 hr 12 min walk" := by
  refine ⟨Int.le_ceil _, ?_, ?_, ?_, ?_⟩
  · intro hlt
    simp only [formatDuration]
    rw [if_pos hlt]
  · intro hge
    simp only [formatDuration]
    rw [if_neg (not_lt.mpr hge)]
  · simp only [formatDuration]
    rw [show ⌈(590 : ℝ) * 1.2 / 60⌉ = (12 : ℤ) from by rw [Int.ceil_eq_iff]; norm_num]
    rw [if_pos (by norm_num)]
    rfl
  · simp only [formatDuration]
    rw [show ⌈(3600 : ℝ) * 1.2 / 60⌉ = (72 : ℤ) from by rw [Int.ceil_eq_iff]; norm_num]
    rw [if_neg (by norm_num)]
    rfl

/-- Witness for C7 at the concrete input 590. -/
theorem claim_C7_witness :
    (0 : ℝ) ≤ 590 ∧
    ((590 : ℝ) * 1.2 / 60 ≤ ((⌈(590 : ℝ) * 1.2 / 60⌉ : ℤ) : ℝ) ∧
     (⌈(590 : ℝ) * 1.2 / 60⌉ < 60 →
       formatDuration 590 = toString ⌈(590 : ℝ) * 1.2 / 60⌉ ++ " min walk") ∧
     (60 ≤ ⌈(590 : ℝ) * 1.2 / 60⌉ →
       formatDuration 590 =
         toString ((⌈(590 : ℝ) * 1.2 / 60⌉).fdiv 60) ++ " hr " ++
         toString ((⌈(590 : ℝ) * 1.2 / 60⌉).tmod 60) ++ " min walk") ∧
     formatDuration 590 = "12 min walk" ∧
     formatDuration 3600 = "1 hr 12 min walk") :=
  ⟨by norm_num, claim_C7 590 (by norm_num)⟩

/-! ### Geodesic utilities -/

theorem getDistanceMeters_eq (p1 p2 : LatLng) :
    getDistanceMeters p1 p2 =
      6371e3 * (2 * atan2 (Real.sqrt (hav p1 p2)) (Real.sqrt (1 - hav p1 p2))) := rfl

theorem hav_comm (a b : LatLng) : hav a b = hav b a := by
  unfold hav
  rw [show a.lat - b.lat = -(b.lat - a.lat) from by ring,
      show a.lng - b.lng = -(b.lng - a.lng) from by ring,
      show -(b.lat - a.lat) * π / 180 / 2 = -((b.lat - a.lat) * π / 180 / 2) from by ring,
      show -(b.lng - a.lng) * π / 180 / 2 = -((b.lng - a.lng) * π / 180 / 2) from by ring,
      Real.sin_neg, Real.sin_neg]
  ring

theorem getDistanceMeters_nonneg (a b : LatLng) : 0 ≤ getDistanceMeters a b := by
  rw [getDistanceMeters_eq]
  have harg : 0 ≤ atan2 (Real.sqrt (hav a b)) (Real.sqrt (1 - hav a b)) :=
    Complex.arg_nonneg_iff.mpr (Real.sqrt_nonneg _)
  have : (0 : ℝ) ≤ 6371e3 := by norm_num
  exact mul_nonneg this (mul_nonneg (by norm_num) harg)

theorem getDistanceMeters_comm (a b : LatLng) :
    getDistanceMeters a b = getDistanceMeters b a := by
  rw [getDistanceMeters_eq, getDistanceMeters_eq, hav_comm]

theorem getDistanceMeters_of_hav_eq_zero (a b : LatLng) (h : hav a b = 0) :
    getDistanceMeters a b = 0 := by
  rw [getDistanceMeters_eq, h]
  rw [Real.sqrt_zero, show (1 : ℝ) - 0 = 1 from by ring, Real.sqrt_one]
  have h0 : atan2 0 1 = 0 := by
    unfold atan2
    have h1 : ((⟨1, 0⟩ : ℂ)) = 1 := by
      refine Complex.ext ?_ ?_ <;> simp
    rw [h1, Complex.arg_one]
  rw [h0]
  ring

theorem hav_self (a : LatLng) : hav a a = 0 := by
  unfold hav
  simp

theorem getDistanceMeters_self (a : LatLng) : getDistanceMeters a a = 0 :=
  getDistanceMeters_of_hav_eq_zero a a (hav_self a)

theorem hav_equator (l1 l2 : ℝ) :
    hav ⟨0, l1⟩ ⟨0, l2⟩ =
      Real.sin ((l2 - l1) * π / 180 / 2) * Real.sin ((l2 - l1) * π / 180 / 2) := by
  unfold hav
  dsimp only
  rw [show ((0 : ℝ) - 0) * π / 180 / 2 = 0 from by ring,
      show (0 : ℝ) * π / 180 = 0 from by ring, Real.sin_zero, Real.cos_zero]
  ring

theorem getDistanceMeters_equator (l1 l2 : ℝ) (h : |l2 - l1| ≤ 180) :
    getDistanceMeters ⟨0, l1⟩ ⟨0, l2⟩ = 6371e3 * (|l2 - l1| * π / 180) := by
  have hπ := Real.pi_pos
  set t := |l2 - l1| * π / 360 with ht
  have ht0 : 0 ≤ t := by
    rw [ht]
    positivity
  have htop : t ≤ π / 2 := by
    have hm := mul_le_mul_of_nonneg_right h hπ.le
    rw [ht]
    linarith
  have hsin : Real.sin ((l2 - l1) * π / 180 / 2) * Real.sin ((l2 - l1) * π / 180 / 2) =
      Real.sin t * Real.sin t := by
    rcases abs_cases (l2 - l1) with ⟨heq, _⟩ | ⟨heq, _⟩
    · rw [show (l2 - l1) * π / 180 / 2 = t from by rw [ht, heq]; ring]
    · rw [show (l2 - l1) * π / 180 / 2 = -t from by rw [ht, heq]; ring, Real.sin_neg]
      ring
  have hhav : hav ⟨0, l1⟩ ⟨0, l2⟩ = Real.sin t * Real.sin t := by
    rw [hav_equator, hsin]
  rw [getDistanceMeters_eq, hhav]
  have hsnn : 0 ≤ Real.sin t := Real.sin_nonneg_of_nonneg_of_le_pi ht0 (by linarith)
  have hcnn : 0 ≤ Real.cos t := Real.cos_nonneg_of_mem_Icc (Set.mem_Icc.mpr ⟨by linarith, htop⟩)
  rw [Real.sqrt_mul_self hsnn]
  rw [show 1 - Real.sin t * Real.sin t = Real.cos t * Real.cos t from by
    nlinarith [Real.sin_sq_add_cos_sq t]]
  rw [Real.sqrt_mul_self hcnn]
  have harg : atan2 (Real.sin t) (Real.cos t) = t := by
    unfold atan2
    rw [Complex.mk_eq_add_mul_I, Complex.ofReal_cos, Complex.ofReal_sin]
    exact Complex.arg_cos_add_sin_mul_I (Set.mem_Ioc.mpr ⟨by linarith, by linarith⟩)
  rw [harg, ht]
  ring

theorem hav_pole : hav ⟨90, 0⟩ ⟨90, 50⟩ = 0 := by
  unfold hav
  dsimp only
  rw [show ((90 : ℝ) - 90) * π / 180 / 2 = 0 from by ring, Real.sin_zero,
      show (90 : ℝ) * π / 180 = π / 2 from by ring, Real.cos_pi_div_two]
  ring

theorem hav_wrap : hav ⟨0, 0⟩ ⟨0, 360⟩ = 0 := by
  unfold hav
  dsimp only
  rw [show ((0 : ℝ) - 0) * π / 180 / 2 = 0 from by ring, Real.sin_zero,
      show ((360 : ℝ) - 0) * π / 180 / 2 = π from by ring, Real.sin_pi]
  ring

theorem jsFmod_bound (v : ℝ) (hv : 0 < v) : 0 ≤ jsFmod v 360 ∧ jsFmod v 360 < 360 := by
  unfold jsFmod jsTrunc
  have h1 : 0 ≤ v / 360 := by positivity
  rw [if_pos h1]
  have h2 : ((⌊v / 360⌋ : ℤ) : ℝ) ≤ v / 360 := Int.floor_le _
  have h3 : v / 360 < (⌊v / 360⌋ : ℝ) + 1 := Int.lt_floor_add_one _
  constructor <;> linarith

theorem getBearing_bounds (a b : LatLng) : 0 ≤ getBearing a b ∧ getBearing a b < 360 := by
  simp only [getBearing]
  have key : ∀ y x : ℝ,
      0 ≤ jsFmod (atan2 y x * 180 / π + 360) 360 ∧
      jsFmod (atan2 y x * 180 / π + 360) 360 < 360 := by
    intro y x
    have hπ := Real.pi_pos
    have hlb : -π < atan2 y x := Complex.neg_pi_lt_arg _
    have hpos : 0 < atan2 y x * 180 / π + 360 := by
      have hd : -180 < atan2 y x * 180 / π := by
        rw [lt_div_iff hπ]
        nlinarith [hlb]
      linarith
    exact jsFmod_bound _ hpos
  exact key _ _

theorem getDistanceMeters_eq_zero_iff (a b : LatLng)
    (h1 : -90 < a.lat) (h2 : a.lat < 90) (h3 : -90 < b.lat) (h4 : b.lat < 90)
    (h5 : |a.lng - b.lng| < 360) :
    getDistanceMeters a b = 0 ↔ a = b := by
  constructor
  · intro h0
    have hπ := Real.pi_pos
    rw [getDistanceMeters_eq] at h0
    have e2 : atan2 (Real.sqrt (hav a b)) (Real.sqrt (1 - hav a b)) = 0 := by linarith
    have him : Real.sqrt (hav a b) = 0 := by
      have harg := Complex.arg_eq_zero_iff.mp (by unfold atan2 at e2; exact e2)
      exact harg.2
    have hA0 : hav a b ≤ 0 := Real.sqrt_eq_zero'.mp him
    have hca : 0 < Real.cos (a.lat * π / 180) := by
      apply Real.cos_pos_of_mem_Ioo
      constructor
      · nlinarith [mul_pos (show (0 : ℝ) < a.lat + 90 by linarith) hπ]
      · nlinarith [mul_pos (show (0 : ℝ) < 90 - a.lat by linarith) hπ]
    have hcb : 0 < Real.cos (b.lat * π / 180) := by
      apply Real.cos_pos_of_mem_Ioo
      constructor
      · nlinarith [mul_pos (show (0 : ℝ) < b.lat + 90 by linarith) hπ]
      · nlinarith [mul_pos (show (0 : ℝ) < 90 - b.lat by linarith) hπ]
    unfold hav at hA0
    have hs1sq : Real.sin ((b.lat - a.lat) * π / 180 / 2) *
        Real.sin ((b.lat - a.lat) * π / 180 / 2) ≤ 0 := by
      nlinarith [hA0, mul_self_nonneg (Real.sin ((b.lng - a.lng) * π / 180 / 2)),
        mul_pos hca hcb]
    have hs1 : Real.sin ((b.lat - a.lat) * π / 180 / 2) = 0 :=
      mul_self_eq_zero.mp (le_antisymm hs1sq (mul_self_nonneg _))
    have hs2sq : Real.sin ((b.lng - a.lng) * π / 180 / 2) *
        Real.sin ((b.lng - a.lng) * π / 180 / 2) ≤ 0 := by
      nlinarith [hA0, mul_self_nonneg (Real.sin ((b.lat - a.lat) * π / 180 / 2)),
        mul_pos hca hcb]
    have hs2 : Real.sin ((b.lng - a.lng) * π / 180 / 2) = 0 :=
      mul_self_eq_zero.mp (le_antisymm hs2sq (mul_self_nonneg _))
    have hb1 : (b.lat - a.lat) * π / 180 / 2 = 0 := by
      refine (Real.sin_eq_zero_iff_of_lt_of_lt ?_ ?_).mp hs1
      · nlinarith [mul_pos (show (0 : ℝ) < b.lat - a.lat + 360 by linarith) hπ]
      · nlinarith [mul_pos (show (0 : ℝ) < 360 - (b.lat - a.lat) by linarith) hπ]
    have hb2 : (b.lng - a.lng) * π / 180 / 2 = 0 := by
      obtain ⟨hl, hr⟩ := abs_lt.mp h5
      refine (Real.sin_eq_zero_iff_of_lt_of_lt ?_ ?_).mp hs2
      · nlinarith [mul_pos (show (0 : ℝ) < b.lng - a.lng + 360 by linarith) hπ]
      · nlinarith [mul_pos (show (0 : ℝ) < 360 - (b.lng - a.lng) by linarith) hπ]
    have hlat : b.lat = a.lat := by
      have h' : (b.lat - a.lat) * π = 0 := by linarith
      rcases mul_eq_zero.mp h' with h'' | h''
      · linarith
      · exact absurd h'' Real.pi_ne_zero
    have hlng : b.lng = a.lng := by
      have h' : (b.lng - a.lng) * π = 0 := by linarith
      rcases mul_eq_zero.mp h' with h'' | h''
      · linarith
      · exact absurd h'' Real.pi_ne_zero
    exact LatLng.ext hlat.symm hlng.symm
  · rintro rfl
    exact getDistanceMeters_self a

/-- C8 (amended): the distance is non-negative, symmetric and zero on equal
points, and the bearing always lies in `[0, 360)`; "distance zero iff
equal" holds under the range restrictions forced by the counterexample
(latitudes strictly between -90 and 90, longitudes less than a full turn
apart). -/
theorem claim_C8 (a b : LatLng) (h1 : -90 < a.lat) (h2 : a.lat < 90) (h3 : -90 < b.lat)
    (h4 : b.lat < 90) (h5 : |a.lng - b.lng| < 360) :
    0 ≤ getDistanceMeters a b ∧
    getDistanceMeters a b = getDistanceMeters b a ∧
    getDistanceMeters a a = 0 ∧
    (getDistanceMeters a b = 0 ↔ a = b) ∧
    0 ≤ getBearing a b ∧ getBearing a b < 360 :=
  ⟨getDistanceMeters_nonneg a b, getDistanceMeters_comm a b, getDistanceMeters_self a,
   getDistanceMeters_eq_zero_iff a b h1 h2 h3 h4 h5,
   (getBearing_bounds a b).1, (getBearing_bounds a b).2⟩

/-- C8 counterexample: at the poles, and at longitudes a full turn apart,
the haversine distance is 0 for distinct coordinates, refuting
"distance 0 iff equal" over all coordinates. -/
theorem claim_C8_counterexample :
    (getDistanceMeters ⟨90, 0⟩ ⟨90, 50⟩ = 0 ∧ (⟨90, 0⟩ : LatLng) ≠ ⟨90, 50⟩) ∧
    (getDistanceMeters ⟨0, 0⟩ ⟨0, 360⟩ = 0 ∧ (⟨0, 0⟩ : LatLng) ≠ ⟨0, 360⟩) := by
  refine ⟨⟨getDistanceMeters_of_hav_eq_zero _ _ hav_pole, ?_⟩,
          ⟨getDistanceMeters_of_hav_eq_zero _ _ hav_wrap, ?_⟩⟩
  · intro h
    have := congrArg LatLng.lng h
    norm_num at this
  · intro h
    have := congrArg LatLng.lng h
    norm_num at this

/-- Witness for C8 at concrete in-range coordinates. -/
theorem claim_C8_witness :
    0 ≤ getDistanceMeters ⟨0, 0⟩ ⟨0, 1⟩ ∧
    getDistanceMeters ⟨0, 0⟩ ⟨0, 1⟩ = getDistanceMeters ⟨0, 1⟩ ⟨0, 0⟩ ∧
    getDistanceMeters ⟨0, 0⟩ ⟨0, 0⟩ = 0 ∧
    (getDistanceMeters ⟨0, 0⟩ ⟨0, 1⟩ = 0 ↔ (⟨0, 0⟩ : LatLng) = ⟨0, 1⟩) ∧
    0 ≤ getBearing ⟨0, 0⟩ ⟨0, 1⟩ ∧ getBearing ⟨0, 0⟩ ⟨0, 1⟩ < 360 :=
  claim_C8 ⟨0, 0⟩ ⟨0, 1⟩ (by norm_num) (by norm_num) (by norm_num) (by norm_num)
    (by norm_num)

/-! ### Stable selection: the head of the stable sort is the first
candidate of minimal score -/

theorem scoreLE_trans : ∀ a b c : Candidate,
    scoreLE a b = true → scoreLE b c = true → scoreLE a c = true := by
  intro a b c hab hbc
  simp only [scoreLE, decide_eq_true_eq] at hab hbc ⊢
  exact le_trans hab hbc

theorem scoreLE_total : ∀ a b : Candidate, (scoreLE a b || scoreLE b a) = true := by
  intro a b
  simp only [scoreLE, Bool.or_eq_true, decide_eq_true_eq]
  exact le_total _ _

theorem mem_split_first {α : Type _} {a : α} {l : List α} (h : a ∈ l) :
    ∃ s t, l = s ++ a :: t ∧ a ∉ s := by
  induction l with
  | nil => cases h
  | cons b bs ih =>
    by_cases hab : a = b
    · subst hab
      exact ⟨[], bs, rfl, List.not_mem_nil a⟩
    · have hm : a ∈ bs := by
        rcases List.mem_cons.mp h with h' | h'
        · exact absurd h' hab
        · exact h'
      obtain ⟨s, t, hst, hnot⟩ := ih hm
      refine ⟨b :: s, t, by rw [hst]; rfl, ?_⟩
      simp only [List.mem_cons]
      rintro (h' | h')
      · exact hab h'
      · exact hnot h'

theorem mergeSort_head_stable_min {l : List Candidate} {m : Candidate} {rest : List Candidate}
    (h : l.mergeSort scoreLE = m :: rest) :
    (∀ c ∈ l, m.score ≤ c.score) ∧
    ∃ s t, l = s ++ m :: t ∧ ∀ c ∈ s, m.score < c.score := by
  have hperm : (l.mergeSort scoreLE).Perm l := List.mergeSort_perm l scoreLE
  have hsorted := List.sorted_mergeSort scoreLE_trans scoreLE_total l
  rw [h] at hperm hsorted
  have hmin : ∀ c ∈ l, m.score ≤ c.score := by
    intro c hc
    have hc' : c ∈ m :: rest := hperm.mem_iff.mpr hc
    rcases List.mem_cons.mp hc' with rfl | hcr
    · exact le_refl _
    · have hcmp := (List.pairwise_cons.mp hsorted).1 c hcr
      simpa [scoreLE, decide_eq_true_eq] using hcmp
  refine ⟨hmin, ?_⟩
  have hm_mem : m ∈ l := hperm.mem_iff.mp (List.mem_cons_self m rest)
  obtain ⟨s, t, hl, hms⟩ := mem_split_first hm_mem
  refine ⟨s, t, hl, ?_⟩
  intro c hcs
  by_contra hnot
  push_neg at hnot
  have hcl : c ∈ l := by
    rw [hl]
    exact List.mem_append.mpr (Or.inl hcs)
  have heq : c.score = m.score := le_antisymm hnot (hmin c hcl)
  have hcm : c ≠ m := fun hcm => hms (hcm ▸ hcs)
  obtain ⟨s1, s2, hs⟩ := List.append_of_mem hcs
  have hms2 : m ∉ s2 := by
    intro hm2
    apply hms
    rw [hs]
    exact List.mem_append.mpr (Or.inr (List.mem_cons_of_mem _ hm2))
  have hl' : l = s1 ++ c :: (s2 ++ m :: t) := by
    rw [hl, hs]
    simp [List.append_assoc]
  have hcount2 : List.count m t + 1 ≤ List.count m (s2 ++ m :: t) := by
    rw [List.count_append, List.count_cons]
    have hz : List.count m s2 = 0 := List.count_eq_zero.mpr hms2
    simp [hz]
  have hsub1 : (List.replicate (List.count m t + 1) m).Sublist (s2 ++ m :: t) :=
    List.le_count_iff_replicate_sublist.mp hcount2
  have hsub2 : (c :: List.replicate (List.count m t + 1) m).Sublist l := by
    rw [hl']
    exact (hsub1.cons₂ c).trans (List.sublist_append_right s1 _)
  have hpair : (c :: List.replicate (List.count m t + 1) m).Pairwise
      (fun a b => scoreLE a b = true) := by
    rw [List.pairwise_cons]
    constructor
    · intro b hb
      rw [List.eq_of_mem_replicate hb]
      simp [scoreLE, heq]
    · rw [List.pairwise_replicate]
      right
      simp [scoreLE]
  have hstab := List.sublist_mergeSort scoreLE_trans scoreLE_total hpair hsub2
  rw [h] at hstab
  cases hstab with
  | cons a h' =>
    have hrep : (List.replicate (List.count m t + 1) m).Sublist rest :=
      List.sublist_of_cons_sublist h'
    have hc1 : List.count m t + 1 ≤ List.count m rest := by
      have hcle := hrep.count_le m
      simpa using hcle
    have hc2 : List.count m l = List.count m t + 1 := by
      rw [hl, List.count_append, List.count_cons]
      have hz : List.count m s = 0 := List.count_eq_zero.mpr hms
      simp [hz]
    have hc3 : List.count m rest + 1 = List.count m l := by
      have hpc := hperm.count_eq m
      simpa [List.count_cons] using hpc
    omega
  | cons₂ a h' => exact hcm rfl

theorem mergeSort_head_of_first_min {a : Candidate} {t : List Candidate}
    (h : ∀ c ∈ t, a.score ≤ c.score) :
    ∃ rest, (a :: t).mergeSort scoreLE = a :: rest := by
  cases hms : (a :: t).mergeSort scoreLE with
  | nil =>
    exfalso
    have hlen := (List.mergeSort_perm (a :: t) scoreLE).length_eq
    rw [hms] at hlen
    simp at hlen
  | cons m rest =>
    obtain ⟨hmin, s, t', hl, hstrict⟩ := mergeSort_head_stable_min hms
    cases s with
    | nil =>
      simp only [List.nil_append] at hl
      injection hl with h1 h2
      refine ⟨rest, ?_⟩
      rw [h1]
    | cons c s' =>
      exfalso
      rw [List.cons_append] at hl
      injection hl with ha ht
      have hma : m.score < a.score := by
        have hcs := hstrict c (List.mem_cons_self c s')
        rwa [← ha] at hcs
      have hm_in : m ∈ t := by
        rw [ht]
        exact List.mem_append.mpr (Or.inr (List.mem_cons_self m t'))
      have := h m hm_in
      linarith

/-! ### Shape of the candidate list and of the selection -/

theorem directCandidate_conflicts (pins : List Pin) (start destinationLoc : LatLng)
    (data : OSRMRoute) :
    (directCandidate pins start destinationLoc data).conflicts =
      checkRouteConflicts (mapCoords data) pins start destinationLoc := rfl

theorem allCandidates_of_conflicts_nil {start destinationLoc : LatLng} {pins : List Pin}
    {data : OSRMRoute} (fetchVia : LatLng → Option OSRMRoute)
    (h : (directCandidate pins start destinationLoc data).conflicts = []) :
    allCandidates start destinationLoc pins data fetchVia =
      [directCandidate pins start destinationLoc data] := by
  simp only [allCandidates, h]

theorem allCandidates_of_conflicts_cons {start destinationLoc : LatLng} {pins : List Pin}
    {data : OSRMRoute} (fetchVia : LatLng → Option OSRMRoute) {cp : Pin} {crest : List Pin}
    (h : (directCandidate pins start destinationLoc data).conflicts = cp :: crest) :
    allCandidates start destinationLoc pins data fetchVia =
      directCandidate pins start destinationLoc data ::
        (detourRequests cp.toLatLng (getBearing start destinationLoc)).filterMap
          (fun wt => (fetchVia wt.1).map
            fun data' => evaluateRoute pins start destinationLoc data' wt.2) := by
  simp only [allCandidates, h]

theorem selectedCandidate_of_conflicts_nil {start destinationLoc : LatLng} {pins : List Pin}
    {data : OSRMRoute} (fetchVia : LatLng → Option OSRMRoute)
    (h : (directCandidate pins start destinationLoc data).conflicts = []) :
    selectedCandidate start destinationLoc pins data fetchVia =
      directCandidate pins start destinationLoc data := by
  simp only [selectedCandidate, h]

theorem selectedCandidate_of_conflicts_cons {start destinationLoc : LatLng} {pins : List Pin}
    {data : OSRMRoute} (fetchVia : LatLng → Option OSRMRoute) {cp : Pin} {crest : List Pin}
    (h : (directCandidate pins start destinationLoc data).conflicts = cp :: crest) :
    selectedCandidate start destinationLoc pins data fetchVia =
      ((allCandidates start destinationLoc pins data fetchVia).mergeSort scoreLE).headD
        (directCandidate pins start destinationLoc data) := by
  simp only [selectedCandidate, h]

theorem allCandidates_shape (start destinationLoc : LatLng) (pins : List Pin)
    (data : OSRMRoute) (fetchVia : LatLng → Option OSRMRoute) :
    ∀ c ∈ allCandidates start destinationLoc pins data fetchVia,
      ∃ d ty, c = evaluateRoute pins start destinationLoc d ty := by
  intro c hc
  cases hconf : (directCandidate pins start destinationLoc data).conflicts with
  | nil =>
    rw [allCandidates_of_conflicts_nil fetchVia hconf] at hc
    refine ⟨data, "direct", ?_⟩
    rw [List.mem_singleton.mp hc]
    rfl
  | cons cp crest =>
    rw [allCandidates_of_conflicts_cons fetchVia hconf] at hc
    rcases List.mem_cons.mp hc with rfl | hc'
    · exact ⟨data, "direct", rfl⟩
    · obtain ⟨wt, _, hmap⟩ := List.mem_filterMap.mp hc'
      obtain ⟨d, _, rfl⟩ := Option.map_eq_some'.mp hmap
      exact ⟨d, wt.2, rfl⟩

theorem evaluateRoute_score (pins : List Pin) (start destinationLoc : LatLng)
    (d : OSRMRoute) (ty : String) :
    (evaluateRoute pins start destinationLoc d ty).score =
      ((evaluateRoute pins start destinationLoc d ty).conflicts.length : ℝ) * 1000000 +
        (evaluateRoute pins start destinationLoc d ty).data.duration := rfl

theorem selected_min (start destinationLoc : LatLng) (pins : List Pin) (data : OSRMRoute)
    (fetchVia : LatLng → Option OSRMRoute) :
    selectedCandidate start destinationLoc pins data fetchVia ∈
      allCandidates start destinationLoc pins data fetchVia ∧
    (∀ c ∈ allCandidates start destinationLoc pins data fetchVia,
      (selectedCandidate start destinationLoc pins data fetchVia).score ≤ c.score) ∧
    ∃ s t, allCandidates start destinationLoc pins data fetchVia =
        s ++ selectedCandidate start destinationLoc pins data fetchVia :: t ∧
      ∀ c ∈ s, (selectedCandidate start destinationLoc pins data fetchVia).score < c.score := by
  cases hconf : (directCandidate pins start destinationLoc data).conflicts with
  | nil =>
    rw [allCandidates_of_conflicts_nil fetchVia hconf,
        selectedCandidate_of_conflicts_nil fetchVia hconf]
    refine ⟨List.mem_singleton_self _, ?_, [], [], rfl, by simp⟩
    intro c hcm
    rw [List.mem_singleton.mp hcm]
  | cons cp crest =>
    rw [selectedCandidate_of_conflicts_cons fetchVia hconf]
    cases hms : (allCandidates start destinationLoc pins data fetchVia).mergeSort scoreLE with
    | nil =>
      exfalso
      have hlen := (List.mergeSort_perm
        (allCandidates start destinationLoc pins data fetchVia) scoreLE).length_eq
      rw [hms, allCandidates_of_conflicts_cons fetchVia hconf] at hlen
      simp at hlen
    | cons m rest =>
      obtain ⟨hmin, s, t, hsplit, hstrict⟩ := mergeSort_head_stable_min hms
      have hhead : (List.headD (m :: rest)
          (directCandidate pins start destinationLoc data)) = m := rfl
      rw [hhead]
      refine ⟨?_, hmin, s, t, hsplit, hstrict⟩
      rw [hsplit]
      exact List.mem_append.mpr (Or.inr (List.mem_cons_self m t))

/-! ### Scoring and selection (C1) -/

theorem checkRouteConflicts_nil_pins (path : List LatLng) (s e : LatLng) :
    checkRouteConflicts path [] s e = [] := by
  simp only [checkRouteConflicts, List.filter_nil, List.foldl_nil]
  have hgen : ∀ (acc : List Pin) (pp : List LatLng),
      pp.foldl (fun conflicts _ => conflicts) acc = acc := by
    intro acc pp
    induction pp generalizing acc with
    | nil => rfl
    | cons q qs ih => rw [List.foldl_cons]; exact ih acc
  exact hgen [] path

/-- C1 (amended): each candidate's score is conflicts × 1,000,000 plus
duration in seconds, and the candidate with the lowest score is selected;
consequently, whenever all candidate durations are non-negative and some
candidate has zero conflicts and duration below 1,000,000 s, the selected
route has zero conflicts (spec scenario: direct 300 s / 1 conflict scores
1,000,300, alternative 1,200 s / 0 conflicts scores 1,200 and wins). -/
theorem claim_C1 (start destinationLoc : LatLng) (pins : List Pin) (data : OSRMRoute)
    (fetchVia : LatLng → Option OSRMRoute)
    (hdur : ∀ c ∈ allCandidates start destinationLoc pins data fetchVia, 0 ≤ c.data.duration) :
    (∀ c ∈ allCandidates start destinationLoc pins data fetchVia,
      c.score = (c.conflicts.length : ℝ) * 1000000 + c.data.duration) ∧
    (∀ c ∈ allCandidates start destinationLoc pins data fetchVia,
      (selectedCandidate start destinationLoc pins data fetchVia).score ≤ c.score) ∧
    (∀ c ∈ allCandidates start destinationLoc pins data fetchVia,
      c.conflicts.length = 0 → c.data.duration < 1000000 →
      (selectedCandidate start destinationLoc pins data fetchVia).conflicts.length = 0) := by
  have hshape := allCandidates_shape start destinationLoc pins data fetchVia
  have hformula : ∀ c ∈ allCandidates start destinationLoc pins data fetchVia,
      c.score = (c.conflicts.length : ℝ) * 1000000 + c.data.duration := by
    intro c hc
    obtain ⟨d, ty, rfl⟩ := hshape c hc
    exact evaluateRoute_score pins start destinationLoc d ty
  obtain ⟨hselmem, hmin, -⟩ := selected_min start destinationLoc pins data fetchVia
  refine ⟨hformula, hmin, ?_⟩
  intro c hc hc0 hclt
  by_contra hne
  have hone : 1 ≤ (selectedCandidate start destinationLoc pins data fetchVia).conflicts.length :=
    Nat.one_le_iff_ne_zero.mpr hne
  have hsel_formula := hformula _ hselmem
  have hc_formula := hformula c hc
  have hsel_dur := hdur _ hselmem
  have hcast : (1 : ℝ) ≤
      ((selectedCandidate start destinationLoc pins data fetchVia).conflicts.length : ℝ) := by
    exact_mod_cast hone
  have hle := hmin c hc
  rw [hsel_formula, hc_formula, hc0] at hle
  push_cast at hle
  linarith

/-- Witness for C1 on a conflict-free concrete instance. -/
theorem claim_C1_witness :
    (∀ c ∈ allCandidates ⟨0, 0⟩ ⟨0, 1⟩ ([] : List Pin) ⟨[], 50⟩ (fun _ => none),
      c.score = (c.conflicts.length : ℝ) * 1000000 + c.data.duration) ∧
    (∀ c ∈ allCandidates ⟨0, 0⟩ ⟨0, 1⟩ ([] : List Pin) ⟨[], 50⟩ (fun _ => none),
      (selectedCandidate ⟨0, 0⟩ ⟨0, 1⟩ [] ⟨[], 50⟩ (fun _ => none)).score ≤ c.score) ∧
    (∀ c ∈ allCandidates ⟨0, 0⟩ ⟨0, 1⟩ ([] : List Pin) ⟨[], 50⟩ (fun _ => none),
      c.conflicts.length = 0 → c.data.duration < 1000000 →
      (selectedCandidate ⟨0, 0⟩ ⟨0, 1⟩ [] ⟨[], 50⟩ (fun _ => none)).conflicts.length = 0) :=
  claim_C1 ⟨0, 0⟩ ⟨0, 1⟩ [] ⟨[], 50⟩ (fun _ => none) (by
    intro c hc
    rw [allCandidates_of_conflicts_nil _ (by
      rw [directCandidate_conflicts]
      exact checkRouteConflicts_nil_pins _ _ _)] at hc
    rw [List.mem_singleton.mp hc]
    norm_num [directCandidate, evaluateRoute])

theorem cex_dist_far (l1 l2 : ℝ) (habs : |l2 - l1| = 0.5) :
    150 ≤ getDistanceMeters ⟨0, l1⟩ ⟨0, l2⟩ ∧ 80 < getDistanceMeters ⟨0, l1⟩ ⟨0, l2⟩ := by
  rw [getDistanceMeters_equator l1 l2 (by rw [habs]; norm_num), habs]
  have hπ : (3.141592 : ℝ) < π := Real.pi_gt_d6
  constructor <;> nlinarith

theorem cex_conflicts :
    checkRouteConflicts [⟨0, 0⟩, ⟨0, 0.5⟩, ⟨0, 1⟩]
      [⟨"p1", 0, 0.5, SafetyLevel.DANGER, "construction", 0, "u1"⟩] ⟨0, 0⟩ ⟨0, 1⟩ =
      [⟨"p1", 0, 0.5, SafetyLevel.DANGER, "construction", 0, "u1"⟩] := by
  have h1 : ¬(getDistanceMeters ⟨0, 0⟩ ⟨0, 0.5⟩ < 150) :=
    not_lt.mpr (cex_dist_far 0 0.5 (by norm_num)).1
  have h2 : getDistanceMeters ⟨0, 0.5⟩ ⟨0, 0.5⟩ < 150 := by
    rw [getDistanceMeters_self]
    norm_num
  have h3 : getDistanceMeters ⟨0, 0.5⟩ ⟨0, 0⟩ > 80 := (cex_dist_far 0.5 0 (by norm_num)).2
  have h4 : getDistanceMeters ⟨0, 0.5⟩ ⟨0, 1⟩ > 80 := (cex_dist_far 0.5 1 (by norm_num)).2
  have h5 : ¬(getDistanceMeters ⟨0, 1⟩ ⟨0, 0.5⟩ < 150) :=
    not_lt.mpr (cex_dist_far 1 0.5 (by norm_num)).1
  simp [checkRouteConflicts, conflictAdd, Pin.toLatLng, h1, h2, h3, h4, h5]

/-- C1 counterexample: with the direct path through one unavoidable DANGER
pin (duration 300 s) and every detour candidate a zero-conflict route of
duration 2,000,000 s, the direct path wins the scoring, so a zero-conflict
alternative is NOT chosen "regardless of its duration". -/
theorem claim_C1_counterexample :
    (directCandidate [⟨"p1", 0, 0.5, SafetyLevel.DANGER, "construction", 0, "u1"⟩]
        ⟨0, 0⟩ ⟨0, 1⟩ ⟨[(0, 0), (0.5, 0), (1, 0)], 300⟩).conflicts.length = 1 ∧
    (∃ c ∈ allCandidates ⟨0, 0⟩ ⟨0, 1⟩
        [⟨"p1", 0, 0.5, SafetyLevel.DANGER, "construction", 0, "u1"⟩]
        ⟨[(0, 0), (0.5, 0), (1, 0)], 300⟩ (fun _ => some ⟨[], 2000000⟩),
      c.conflicts.length = 0) ∧
    (selectedCandidate ⟨0, 0⟩ ⟨0, 1⟩
        [⟨"p1", 0, 0.5, SafetyLevel.DANGER, "construction", 0, "u1"⟩]
        ⟨[(0, 0), (0.5, 0), (1, 0)], 300⟩ (fun _ => some ⟨[], 2000000⟩)).conflicts.length = 1 := by
  have hdc : (directCandidate [⟨"p1", 0, 0.5, SafetyLevel.DANGER, "construction", 0, "u1"⟩]
      ⟨0, 0⟩ ⟨0, 1⟩ ⟨[(0, 0), (0.5, 0), (1, 0)], 300⟩).conflicts =
      [⟨"p1", 0, 0.5, SafetyLevel.DANGER, "construction", 0, "u1"⟩] := by
    rw [directCandidate_conflicts]
    have hmap : mapCoords ⟨[(0, 0), (0.5, 0), (1, 0)], 300⟩ =
        [⟨0, 0⟩, ⟨0, 0.5⟩, ⟨0, 1⟩] := rfl
    rw [hmap, cex_conflicts]
  have haltconf : ∀ ty : String,
      (evaluateRoute [⟨"p1", 0, 0.5, SafetyLevel.DANGER, "construction", 0, "u1"⟩]
        ⟨0, 0⟩ ⟨0, 1⟩ ⟨[], 2000000⟩ ty).conflicts = [] := fun _ => rfl
  have haltscore : ∀ ty : String,
      (evaluateRoute [⟨"p1", 0, 0.5, SafetyLevel.DANGER, "construction", 0, "u1"⟩]
        ⟨0, 0⟩ ⟨0, 1⟩ ⟨[], 2000000⟩ ty).score = 2000000 := by
    intro ty
    have h0 : (evaluateRoute [⟨"p1", 0, 0.5, SafetyLevel.DANGER, "construction", 0, "u1"⟩]
        ⟨0, 0⟩ ⟨0, 1⟩ ⟨[], 2000000⟩ ty).score = ((0 : ℕ) : ℝ) * 1000000 + 2000000 := rfl
    rw [h0]
    norm_num
  have hdscore : (directCandidate [⟨"p1", 0, 0.5, SafetyLevel.DANGER, "construction", 0, "u1"⟩]
      ⟨0, 0⟩ ⟨0, 1⟩ ⟨[(0, 0), (0.5, 0), (1, 0)], 300⟩).score = 1000300 := by
    have h0 : (directCandidate [⟨"p1", 0, 0.5, SafetyLevel.DANGER, "construction", 0, "u1"⟩]
        ⟨0, 0⟩ ⟨0, 1⟩ ⟨[(0, 0), (0.5, 0), (1, 0)], 300⟩).score =
        ((directCandidate [⟨"p1", 0, 0.5, SafetyLevel.DANGER, "construction", 0, "u1"⟩]
          ⟨0, 0⟩ ⟨0, 1⟩ ⟨[(0, 0), (0.5, 0), (1, 0)], 300⟩).conflicts.length : ℝ) * 1000000 +
          300 := rfl
    rw [h0, hdc]
    norm_num
  have hminfact : ∀ c ∈ (detourRequests
      (Pin.toLatLng ⟨"p1", 0, 0.5, SafetyLevel.DANGER, "construction", 0, "u1"⟩)
      (getBearing ⟨0, 0⟩ ⟨0, 1⟩)).filterMap
        (fun wt => ((fun _ => some (⟨[], 2000000⟩ : OSRMRoute)) wt.1).map
          fun data' => evaluateRoute [⟨"p1", 0, 0.5, SafetyLevel.DANGER, "construction", 0, "u1"⟩]
            ⟨0, 0⟩ ⟨0, 1⟩ data' wt.2),
      (directCandidate [⟨"p1", 0, 0.5, SafetyLevel.DANGER, "construction", 0, "u1"⟩]
        ⟨0, 0⟩ ⟨0, 1⟩ ⟨[(0, 0), (0.5, 0), (1, 0)], 300⟩).score ≤ c.score := by
    intro c hc
    obtain ⟨wt, _, hmapc⟩ := List.mem_filterMap.mp hc
    simp only [Option.map_some'] at hmapc
    obtain rfl := Option.some.injEq _ _ ▸ hmapc
    rw [hdscore, haltscore]
    norm_num
  refine ⟨by rw [hdc]; rfl, ?_, ?_⟩
  · refine ⟨evaluateRoute [⟨"p1", 0, 0.5, SafetyLevel.DANGER, "construction", 0, "u1"⟩]
      ⟨0, 0⟩ ⟨0, 1⟩ ⟨[], 2000000⟩
      ("left-" ++ toString (300 : ℕ)), ?_, ?_⟩
    · rw [allCandidates_of_conflicts_cons _ hdc]
      refine List.mem_cons_of_mem _ (List.mem_filterMap.mpr
        ⟨(getDestinationPoint
            (Pin.toLatLng ⟨"p1", 0, 0.5, SafetyLevel.DANGER, "construction", 0, "u1"⟩)
            ((300 : ℕ) : ℝ) (getBearing ⟨0, 0⟩ ⟨0, 1⟩ - 90), "left-" ++ toString (300 : ℕ)),
          ?_, rfl⟩)
      exact List.mem_flatMap.mpr ⟨300, by simp [offsets], List.mem_cons_self _ _⟩
    · rw [haltconf]
      rfl
  · rw [selectedCandidate_of_conflicts_cons _ hdc, allCandidates_of_conflicts_cons _ hdc]
    obtain ⟨rest, hms⟩ := mergeSort_head_of_first_min hminfact
    rw [hms]
    simp only [List.headD_cons]
    rw [hdc]
    rfl

/-! ### Generation order and stable tie-breaking (C3) -/

/-- C3: when the direct path has conflicts, the merged candidate list is
the direct candidate followed by the settled detour candidates in request
order, and the selection is a stable minimum over that list: every
candidate strictly before the selected one has a strictly larger score,
and no candidate has a smaller score. -/
theorem claim_C3 (start destinationLoc : LatLng) (pins : List Pin) (data : OSRMRoute)
    (fetchVia : LatLng → Option OSRMRoute)
    (h : (directCandidate pins start destinationLoc data).conflicts ≠ []) :
    ∃ cp crest, (directCandidate pins start destinationLoc data).conflicts = cp :: crest ∧
      allCandidates start destinationLoc pins data fetchVia =
        directCandidate pins start destinationLoc data ::
          (detourRequests cp.toLatLng (getBearing start destinationLoc)).filterMap
            (fun wt => (fetchVia wt.1).map
              fun data' => evaluateRoute pins start destinationLoc data' wt.2) ∧
      ∃ s t, allCandidates start destinationLoc pins data fetchVia =
          s ++ selectedCandidate start destinationLoc pins data fetchVia :: t ∧
        (∀ c ∈ s, (selectedCandidate start destinationLoc pins data fetchVia).score < c.score) ∧
        (∀ c ∈ allCandidates start destinationLoc pins data fetchVia,
          (selectedCandidate start destinationLoc pins data fetchVia).score ≤ c.score) := by
  cases hconf : (directCandidate pins start destinationLoc data).conflicts with
  | nil => exact absurd hconf h
  | cons cp crest =>
    obtain ⟨hmem, hmin, s, t, hsplit, hstrict⟩ :=
      selected_min start destinationLoc pins data fetchVia
    exact ⟨cp, crest, rfl, allCandidates_of_conflicts_cons fetchVia hconf,
      s, t, hsplit, hstrict, hmin⟩

/-- Witness for C3 on the concrete one-conflict instance. -/
theorem claim_C3_witness :
    ∃ cp crest, (directCandidate [⟨"p1", 0, 0.5, SafetyLevel.DANGER, "construction", 0, "u1"⟩]
        ⟨0, 0⟩ ⟨0, 1⟩ ⟨[(0, 0), (0.5, 0), (1, 0)], 300⟩).conflicts = cp :: crest ∧
      allCandidates ⟨0, 0⟩ ⟨0, 1⟩ [⟨"p1", 0, 0.5, SafetyLevel.DANGER, "construction", 0, "u1"⟩]
          ⟨[(0, 0), (0.5, 0), (1, 0)], 300⟩ (fun _ => none) =
        directCandidate [⟨"p1", 0, 0.5, SafetyLevel.DANGER, "construction", 0, "u1"⟩]
            ⟨0, 0⟩ ⟨0, 1⟩ ⟨[(0, 0), (0.5, 0), (1, 0)], 300⟩ ::
          (detourRequests cp.toLatLng (getBearing ⟨0, 0⟩ ⟨0, 1⟩)).filterMap
            (fun wt => ((fun _ => none : LatLng → Option OSRMRoute) wt.1).map
              fun data' => evaluateRoute
                [⟨"p1", 0, 0.5, SafetyLevel.DANGER, "construction", 0, "u1"⟩]
                ⟨0, 0⟩ ⟨0, 1⟩ data' wt.2) ∧
      ∃ s t, allCandidates ⟨0, 0⟩ ⟨0, 1⟩
          [⟨"p1", 0, 0.5, SafetyLevel.DANGER, "construction", 0, "u1"⟩]
          ⟨[(0, 0), (0.5, 0), (1, 0)], 300⟩ (fun _ => none) =
          s ++ selectedCandidate ⟨0, 0⟩ ⟨0, 1⟩
            [⟨"p1", 0, 0.5, SafetyLevel.DANGER, "construction", 0, "u1"⟩]
            ⟨[(0, 0), (0.5, 0), (1, 0)], 300⟩ (fun _ => none) :: t ∧
        (∀ c ∈ s, (selectedCandidate ⟨0, 0⟩ ⟨0, 1⟩
            [⟨"p1", 0, 0.5, SafetyLevel.DANGER, "construction", 0, "u1"⟩]
            ⟨[(0, 0), (0.5, 0), (1, 0)], 300⟩ (fun _ => none)).score < c.score) ∧
        (∀ c ∈ allCandidates ⟨0, 0⟩ ⟨0, 1⟩
            [⟨"p1", 0, 0.5, SafetyLevel.DANGER, "construction", 0, "u1"⟩]
            ⟨[(0, 0), (0.5, 0), (1, 0)], 300⟩ (fun _ => none),
          (selectedCandidate ⟨0, 0⟩ ⟨0, 1⟩
            [⟨"p1", 0, 0.5, SafetyLevel.DANGER, "construction", 0, "u1"⟩]
            ⟨[(0, 0), (0.5, 0), (1, 0)], 300⟩ (fun _ => none)).score ≤ c.score) :=
  claim_C3 ⟨0, 0⟩ ⟨0, 1⟩ [⟨"p1", 0, 0.5, SafetyLevel.DANGER, "construction", 0, "u1"⟩]
    ⟨[(0, 0), (0.5, 0), (1, 0)], 300⟩ (fun _ => none) (by
      have hdc : (directCandidate
          [⟨"p1", 0, 0.5, SafetyLevel.DANGER, "construction", 0, "u1"⟩]
          ⟨0, 0⟩ ⟨0, 1⟩ ⟨[(0, 0), (0.5, 0), (1, 0)], 300⟩).conflicts =
          [⟨"p1", 0, 0.5, SafetyLevel.DANGER, "construction", 0, "u1"⟩] := by
        rw [directCandidate_conflicts]
        exact cex_conflicts
      rw [hdc]
      simp)

/-! ### Detour fan-out (C4) -/

/-- C4: with a conflicted direct path, exactly eight detour requests are
generated — for each offset in 300, 600, 1000, 1500 the first conflict
projected 90 degrees left then right of the start-to-destination bearing —
each failed fetch contributes no candidate, and the calculation reaches
the failure outcome only through the narrative call, independently of the
detour fetch results. -/
theorem claim_C4 (start destinationLoc : LatLng) (pins : List Pin) (data : OSRMRoute)
    (fetchVia : LatLng → Option OSRMRoute) (aiText : Except Unit (Option String))
    (parseSafetyNote : String → Option String) (cp : Pin) (crest : List Pin)
    (h : (directCandidate pins start destinationLoc data).conflicts = cp :: crest) :
    detourRequests cp.toLatLng (getBearing start destinationLoc) =
      [(getDestinationPoint cp.toLatLng 300 (getBearing start destinationLoc - 90), "left-300"),
       (getDestinationPoint cp.toLatLng 300 (getBearing start destinationLoc + 90), "right-300"),
       (getDestinationPoint cp.toLatLng 600 (getBearing start destinationLoc - 90), "left-600"),
       (getDestinationPoint cp.toLatLng 600 (getBearing start destinationLoc + 90), "right-600"),
       (getDestinationPoint cp.toLatLng 1000 (getBearing start destinationLoc - 90), "left-1000"),
       (getDestinationPoint cp.toLatLng 1000 (getBearing start destinationLoc + 90), "right-1000"),
       (getDestinationPoint cp.toLatLng 1500 (getBearing start destinationLoc - 90), "left-1500"),
       (getDestinationPoint cp.toLatLng 1500 (getBearing start destinationLoc + 90), "right-1500")] ∧
    (detourRequests cp.toLatLng (getBearing start destinationLoc)).length = 8 ∧
    (allCandidates start destinationLoc pins data fetchVia).length =
      1 + (detourRequests cp.toLatLng (getBearing start destinationLoc)).countP
        (fun wt => (fetchVia wt.1).isSome) ∧
    (getSafeRoute start destinationLoc pins (some data) fetchVia aiText parseSafetyNote =
        apologyResponse ↔ ∃ e, aiText = Except.error e) := by
  refine ⟨?_, ?_, ?_, ?_⟩
  · simp only [detourRequests, offsets, List.flatMap_cons, List.flatMap_nil, List.append_nil,
      List.cons_append, List.nil_append, Nat.cast_ofNat, List.cons.injEq, Prod.mk.injEq,
      and_true, true_and]
    all_goals decide
  · simp only [detourRequests, offsets, List.flatMap_cons, List.flatMap_nil, List.append_nil,
      List.cons_append, List.nil_append]
    rfl
  · rw [allCandidates_of_conflicts_cons fetchVia h, List.length_cons]
    have hlen : ∀ (l : List (LatLng × String)),
        (l.filterMap fun wt => (fetchVia wt.1).map
          fun data' => evaluateRoute pins start destinationLoc data' wt.2).length =
        l.countP fun wt => (fetchVia wt.1).isSome := by
      intro l
      induction l with
      | nil => rfl
      | cons a l ih =>
        rw [List.filterMap_cons, List.countP_cons]
        cases hfa : fetchVia a.1 with
        | none => simpa [hfa] using ih
        | some d => simp [hfa, ih]
    rw [hlen]
    omega
  · cases aiText with
    | error e => simp [getSafeRoute]
    | ok t => simp [getSafeRoute, apologyResponse, RouteResponse.mk.injEq]

/-- Witness for C4 on the concrete one-conflict instance with all detour
fetches failing. -/
theorem claim_C4_witness :
    detourRequests (Pin.toLatLng ⟨"p1", 0, 0.5, SafetyLevel.DANGER, "construction", 0, "u1"⟩)
        (getBearing ⟨0, 0⟩ ⟨0, 1⟩) =
      [(getDestinationPoint
          (Pin.toLatLng ⟨"p1", 0, 0.5, SafetyLevel.DANGER, "construction", 0, "u1"⟩) 300
          (getBearing ⟨0, 0⟩ ⟨0, 1⟩ - 90), "left-300"),
       (getDestinationPoint
          (Pin.toLatLng ⟨"p1", 0, 0.5, SafetyLevel.DANGER, "construction", 0, "u1"⟩) 300
          (getBearing ⟨0, 0⟩ ⟨0, 1⟩ + 90), "right-300"),
       (getDestinationPoint
          (Pin.toLatLng ⟨"p1", 0, 0.5, SafetyLevel.DANGER, "construction", 0, "u1"⟩) 600
          (getBearing ⟨0, 0⟩ ⟨0, 1⟩ - 90), "left-600"),
       (getDestinationPoint
          (Pin.toLatLng ⟨"p1", 0, 0.5, SafetyLevel.DANGER, "construction", 0, "u1"⟩) 600
          (getBearing ⟨0, 0⟩ ⟨0, 1⟩ + 90), "right-600"),
       (getDestinationPoint
          (Pin.toLatLng ⟨"p1", 0, 0.5, SafetyLevel.DANGER, "construction", 0, "u1"⟩) 1000
          (getBearing ⟨0, 0⟩ ⟨0, 1⟩ - 90), "left-1000"),
       (getDestinationPoint
          (Pin.toLatLng ⟨"p1", 0, 0.5, SafetyLevel.DANGER, "construction", 0, "u1"⟩) 1000
          (getBearing ⟨0, 0⟩ ⟨0, 1⟩ + 90), "right-1000"),
       (getDestinationPoint
          (Pin.toLatLng ⟨"p1", 0, 0.5, SafetyLevel.DANGER, "construction", 0, "u1"⟩) 1500
          (getBearing ⟨0, 0⟩ ⟨0, 1⟩ - 90), "left-1500"),
       (getDestinationPoint
          (Pin.toLatLng ⟨"p1", 0, 0.5, SafetyLevel.DANGER, "construction", 0, "u1"⟩) 1500
          (getBearing ⟨0, 0⟩ ⟨0, 1⟩ + 90), "right-1500")] ∧
    (detourRequests (Pin.toLatLng ⟨"p1", 0, 0.5, SafetyLevel.DANGER, "construction", 0, "u1"⟩)
        (getBearing ⟨0, 0⟩ ⟨0, 1⟩)).length = 8 ∧
    (allCandidates ⟨0, 0⟩ ⟨0, 1⟩ [⟨"p1", 0, 0.5, SafetyLevel.DANGER, "construction", 0, "u1"⟩]
        ⟨[(0, 0), (0.5, 0), (1, 0)], 300⟩ (fun _ => none)).length =
      1 + (detourRequests
            (Pin.toLatLng ⟨"p1", 0, 0.5, SafetyLevel.DANGER, "construction", 0, "u1"⟩)
            (getBearing ⟨0, 0⟩ ⟨0, 1⟩)).countP
          (fun wt => ((fun _ => none : LatLng → Option OSRMRoute) wt.1).isSome) ∧
    (getSafeRoute ⟨0, 0⟩ ⟨0, 1⟩ [⟨"p1", 0, 0.5, SafetyLevel.DANGER, "construction", 0, "u1"⟩]
        (some ⟨[(0, 0), (0.5, 0), (1, 0)], 300⟩) (fun _ => none) (Except.ok none)
        (fun _ => none) = apologyResponse ↔
      ∃ e, (Except.ok none : Except Unit (Option String)) = Except.error e) :=
  claim_C4 ⟨0, 0⟩ ⟨0, 1⟩ [⟨"p1", 0, 0.5, SafetyLevel.DANGER, "construction", 0, "u1"⟩]
    ⟨[(0, 0), (0.5, 0), (1, 0)], 300⟩ (fun _ => none) (Except.ok none) (fun _ => none)
    ⟨"p1", 0, 0.5, SafetyLevel.DANGER, "construction", 0, "u1"⟩ [] (by
      rw [directCandidate_conflicts]
      exact cex_conflicts)

/-! ### Failure outcome (C5) -/

/-- C5 (amended): the calculation never throws and yields the fixed
apology outcome (empty route, absent duration) exactly when the routing
provider returns no direct route OR the narrative annotation call throws;
no-route-found is therefore not the only condition producing it. -/
theorem claim_C5 (start destinationLoc : LatLng) (pins : List Pin)
    (fetchDirect : Option OSRMRoute) (fetchVia : LatLng → Option OSRMRoute)
    (aiText : Except Unit (Option String)) (parseSafetyNote : String → Option String) :
    (getSafeRoute start destinationLoc pins fetchDirect fetchVia aiText parseSafetyNote =
        apologyResponse ↔ (fetchDirect = none ∨ ∃ e, aiText = Except.error e)) ∧
    apologyResponse.route = [] ∧ apologyResponse.duration = none ∧
    apologyResponse.safetyNote = some apologyNote := by
  refine ⟨?_, rfl, rfl, rfl⟩
  cases fetchDirect with
  | none => simp [getSafeRoute]
  | some data =>
    cases aiText with
    | error e => simp [getSafeRoute]
    | ok t => simp [getSafeRoute, apologyResponse, RouteResponse.mk.injEq]

/-- C5 counterexample: a present direct route with a throwing narrative
call still produces the apology outcome, refuting "no-route-found is the
only condition elevated to this failure outcome". -/
theorem claim_C5_counterexample :
    getSafeRoute ⟨0, 0⟩ ⟨0, 1⟩ [] (some ⟨[], 100⟩) (fun _ => none) (Except.error ())
        (fun _ => none) = apologyResponse ∧
    (some (⟨[], 100⟩ : OSRMRoute)) ≠ none := by
  constructor
  · simp [getSafeRoute]
  · simp

/-! ### Narrative fallback (C6) -/

/-- C6 (amended): when the narrative call returns (does not throw) but its
response is missing, is unparsable JSON, or lacks a truthy `safetyNote`
field, the calculation still succeeds and attaches the deterministic
fallback: the neutral note when the chosen path has zero conflicts, the
strict warning otherwise.  (A thrown call instead reaches the outer catch
— see the counterexample.) -/
theorem claim_C6 (start destinationLoc : LatLng) (pins : List Pin) (data : OSRMRoute)
    (fetchVia : LatLng → Option OSRMRoute) (t : Option String)
    (parseSafetyNote : String → Option String)
    (h : t = none ∨ ∃ s, t = some s ∧ parseSafetyNote s = none) :
    getSafeRoute start destinationLoc pins (some data) fetchVia (Except.ok t)
        parseSafetyNote =
      ⟨(selectedCandidate start destinationLoc pins data fetchVia).coords,
       some (formatDuration
         (selectedCandidate start destinationLoc pins data fetchVia).data.duration),
       some (if (selectedCandidate start destinationLoc pins data fetchVia).conflicts.length = 0
             then stayAwareNote else noSafePathNote)⟩ := by
  rcases h with rfl | ⟨s, rfl, hs⟩
  · simp only [getSafeRoute]
    by_cases h0 :
        (selectedCandidate start destinationLoc pins data fetchVia).conflicts.length = 0
    · simp [h0]
    · simp [h0, Nat.pos_of_ne_zero h0]
  · simp only [getSafeRoute, hs]
    by_cases h0 :
        (selectedCandidate start destinationLoc pins data fetchVia).conflicts.length = 0
    · simp [h0]
    · simp [h0, Nat.pos_of_ne_zero h0]

/-- Witness for C6: missing response text degrades to the neutral note. -/
theorem claim_C6_witness :
    getSafeRoute ⟨0, 0⟩ ⟨0, 1⟩ [] (some ⟨[], 100⟩) (fun _ => none) (Except.ok none)
        (fun _ => none) =
      ⟨(selectedCandidate ⟨0, 0⟩ ⟨0, 1⟩ [] ⟨[], 100⟩ (fun _ => none)).coords,
       some (formatDuration
         (selectedCandidate ⟨0, 0⟩ ⟨0, 1⟩ [] ⟨[], 100⟩ (fun _ => none)).data.duration),
       some (if (selectedCandidate ⟨0, 0⟩ ⟨0, 1⟩ [] ⟨[], 100⟩
             (fun _ => none)).conflicts.length = 0
             then stayAwareNote else noSafePathNote)⟩ :=
  claim_C6 ⟨0, 0⟩ ⟨0, 1⟩ [] ⟨[], 100⟩ (fun _ => none) none (fun _ => none) (Or.inl rfl)

/-- C6 counterexample: a thrown narrative call (network error) is not
degraded to a fallback attached to the chosen route — it produces the
failed-calculation apology outcome with an empty route. -/
theorem claim_C6_counterexample :
    getSafeRoute ⟨0, 0⟩ ⟨0, 2⟩ [] (some ⟨[(0, 0), (2, 0)], 200⟩) (fun _ => none)
        (Except.error ()) (fun _ => none) = apologyResponse ∧
    apologyResponse.route = [] ∧
    apologyResponse.safetyNote ≠ some stayAwareNote ∧
    apologyResponse.safetyNote ≠ some noSafePathNote := by
  refine ⟨by simp [getSafeRoute], rfl, by decide, by decide⟩

/-! ### Result shape (C9) -/

/-- C9: a successful calculation returns a defined formatted duration and
safety note alongside the selected route's path, while the failure outcome
is exactly the apology response, whose route is empty and whose duration
field is absent. -/
theorem claim_C9 (start destinationLoc : LatLng) (pins : List Pin)
    (fetchDirect : Option OSRMRoute) (fetchVia : LatLng → Option OSRMRoute)
    (aiText : Except Unit (Option String)) (parseSafetyNote : String → Option String) :
    ((fetchDirect = none ∨ ∃ e, aiText = Except.error e) →
      getSafeRoute start destinationLoc pins fetchDirect fetchVia aiText parseSafetyNote =
        apologyResponse) ∧
    (∀ data t, fetchDirect = some data → aiText = Except.ok t →
      (getSafeRoute start destinationLoc pins fetchDirect fetchVia aiText
          parseSafetyNote).route =
        (selectedCandidate start destinationLoc pins data fetchVia).coords ∧
      (getSafeRoute start destinationLoc pins fetchDirect fetchVia aiText
          parseSafetyNote).duration =
        some (formatDuration
          (selectedCandidate start destinationLoc pins data fetchVia).data.duration) ∧
      (getSafeRoute start destinationLoc pins fetchDirect fetchVia aiText
          parseSafetyNote).safetyNote.isSome = true) ∧
    apologyResponse.route = [] ∧ apologyResponse.duration = none := by
  refine ⟨?_, ?_, rfl, rfl⟩
  · rintro (rfl | ⟨e, rfl⟩)
    · simp [getSafeRoute]
    · cases fetchDirect <;> simp [getSafeRoute]
  · rintro data t rfl rfl
    exact ⟨rfl, rfl, rfl⟩

/-- Witness for C9: a successful and a failing concrete instance. -/
theorem claim_C9_witness :
    (getSafeRoute ⟨0, 0⟩ ⟨0, 1⟩ [] (some ⟨[], 50⟩) (fun _ => none) (Except.ok none)
        (fun _ => none)).duration =
      some (formatDuration
        (selectedCandidate ⟨0, 0⟩ ⟨0, 1⟩ [] ⟨[], 50⟩ (fun _ => none)).data.duration) ∧
    getSafeRoute ⟨0, 0⟩ ⟨0, 1⟩ [] none (fun _ => none) (Except.ok none) (fun _ => none) =
      apologyResponse := by
  constructor
  · exact ((claim_C9 ⟨0, 0⟩ ⟨0, 1⟩ [] (some ⟨[], 50⟩) (fun _ => none) (Except.ok none)
      (fun _ => none)).2.1 ⟨[], 50⟩ none rfl rfl).2.1
  · exact (claim_C9 ⟨0, 0⟩ ⟨0, 1⟩ [] none (fun _ => none) (Except.ok none)
      (fun _ => none)).1 (Or.inl rfl)

/-- Witness for C2 at a concrete path and pin set. -/
theorem claim_C2_witness :
    (∀ q : Pin, q ∈ checkRouteConflicts [⟨0, 0⟩]
        [⟨"w", 0, 0, SafetyLevel.CAUTION, "d", 0, "u"⟩] ⟨0, 0⟩ ⟨0, 1⟩ ↔
      (q ∈ [⟨"w", 0, 0, SafetyLevel.CAUTION, "d", 0, "u"⟩] ∧
        q.safetyLevel = SafetyLevel.DANGER ∧
        (∃ point ∈ [(⟨0, 0⟩ : LatLng)], getDistanceMeters point q.toLatLng < 150) ∧
        getDistanceMeters q.toLatLng ⟨0, 0⟩ > 80 ∧
        getDistanceMeters q.toLatLng ⟨0, 1⟩ > 80)) ∧
    (checkRouteConflicts [⟨0, 0⟩] [⟨"w", 0, 0, SafetyLevel.CAUTION, "d", 0, "u"⟩]
      ⟨0, 0⟩ ⟨0, 1⟩).Nodup :=
  claim_C2 [⟨0, 0⟩] [⟨"w", 0, 0, SafetyLevel.CAUTION, "d", 0, "u"⟩] ⟨0, 0⟩ ⟨0, 1⟩

/-- Witness for C5 at a concrete failing instance. -/
theorem claim_C5_witness :
    (getSafeRoute ⟨0, 0⟩ ⟨0, 1⟩ [] none (fun _ => none) (Except.ok none) (fun _ => none) =
        apologyResponse ↔
      ((none : Option OSRMRoute) = none ∨
        ∃ e, (Except.ok none : Except Unit (Option String)) = Except.error e)) ∧
    apologyResponse.route = [] ∧ apologyResponse.duration = none ∧
    apologyResponse.safetyNote = some apologyNote :=
  claim_C5 ⟨0, 0⟩ ⟨0, 1⟩ [] none (fun _ => none) (Except.ok none) (fun _ => none)

/-- Witness for C10 at a concrete store. -/
theorem claim_C10_witness :
    ((addPin [] ⟨0, 0, SafetyLevel.SAFE, "d", "u"⟩ "id1" 5).1 =
        [] ++ [(addPin [] ⟨0, 0, SafetyLevel.SAFE, "d", "u"⟩ "id1" 5).2] ∧
     (addPin [] ⟨0, 0, SafetyLevel.SAFE, "d", "u"⟩ "id1" 5).1.take (List.length ([] : List Pin)) =
        [] ∧
     (addPin [] ⟨0, 0, SafetyLevel.SAFE, "d", "u"⟩ "id1" 5).2.id = "id1" ∧
     (addPin [] ⟨0, 0, SafetyLevel.SAFE, "d", "u"⟩ "id1" 5).2.timestamp = 5) ∧
    ((removePin [] "x").Sublist [] ∧
     ∀ q : Pin, q ∈ removePin [] "x" ↔ q ∈ ([] : List Pin) ∧ q.id ≠ "x") :=
  claim_C10 [] ⟨0, 0, SafetyLevel.SAFE, "d", "u"⟩ "id1" 5 "x"
